import Mathlib

/-!
Shallow embedding of the geometry and serialization core of the
pragma-graph-tool repository (src/src/utils/nodeUtils.ts,
src/src/utils/exportUtils.ts, the canvas helpers of src/unnamed/part_005 and
the diagram reducer of src/unnamed/part_001), together with theorems about
the embedded functions.

Modelling conventions:
* JavaScript double arithmetic is modelled by exact arithmetic: scalar
  values that the code derives purely from the integer base sizes and the
  size multipliers are kept in `ℚ`; coordinate geometry (square roots,
  trigonometry) lives in `ℝ`.
* `Math.round` is `fun q => ⌊q + 1/2⌋` (round half toward positive
  infinity), `toFixed(2)` is rounding to the nearest multiple of `1/100`
  with ties toward the larger numerator, both as ECMAScript specifies.
* Strings are Lean `String`s; `a < b` on JavaScript strings is the
  lexicographic order on their characters.  `Array.prototype.sort` with the
  `localeCompare` comparator is modelled as sorting by that same
  lexicographic order on ids (the two agree on the lowercase-hex uuid ids
  the application generates).
* Only the fields the functions under verification read are carried by the
  record types; `path` strings (derived from the very points kept in the
  geometry record) and metadata timestamps are omitted.
-/

namespace PragmaGraph

/-- Point in canvas coordinates (`{ x, y }` of src/src/types). -/
structure Point where
  x : ℝ
  y : ℝ

@[ext] theorem Point.ext_xy {p q : Point} (hx : p.x = q.x) (hy : p.y = q.y) : p = q := by
  cases p; cases q; simp_all

/-- Node type tag (`vocabulary | practice | test | operate | exit | custom`). -/
inductive NodeType
  | vocabulary
  | practice
  | test
  | operate
  | exit
  | custom
deriving DecidableEq

/-- Size class of a node style (`small | medium | large`). -/
inductive SizeClass
  | small
  | medium
  | large
deriving DecidableEq

/-- Optional style override of a node: the fields the geometry core reads. -/
structure NodeStyle where
  shape : Option String := none
  size : Option SizeClass := none

/-- Node: id, type tag, position and optional style (label and colors are
not read by the functions verified here). -/
structure Node where
  id : String
  type : NodeType
  position : Point
  style : Option NodeStyle := none

/-- Edge: id and the two endpoint node ids (type, label and isResultant do
not enter the geometry computations verified here). -/
structure Edge where
  id : String
  source : String
  target : String
deriving DecidableEq

/-- Left and right curly brace characters (kept as named constants). -/
def lbrace : Char := Char.ofNat 123

def rbrace : Char := Char.ofNat 125

/-- Default shape per node type, from `getNodeShape` of nodeUtils.ts
(the trailing `|| 'circle'` of the source is unreachable for the closed
enumeration of node types). -/
def defaultShape : NodeType → String
  | .vocabulary => "ellipse"
  | .practice => "rectangle"
  | .test => "diamond"
  | .operate => "rectangle"
  | .exit => "rectangle"
  | .custom => "circle"

/-- getNodeShape of nodeUtils.ts: an explicit non-empty style shape wins
(the empty string is falsy in `if (node.style?.shape)`), otherwise the
per-type default. -/
def getNodeShape (node : Node) : String :=
  match node.style.bind NodeStyle.shape with
  | some sh => if sh = "" then defaultShape node.type else sh
  | none => defaultShape node.type

/-- Effective size class: `node.style?.size || 'medium'`. -/
def nodeSizeClass (node : Node) : SizeClass :=
  (node.style.bind NodeStyle.size).getD .medium

/-- Size multiplier: small 0.8, medium 1, large 1.3. -/
def sizeMultiplier : SizeClass → ℚ
  | .small => 8 / 10
  | .medium => 1
  | .large => 13 / 10

/-- Math.round: round half toward positive infinity. -/
def jsRound (q : ℚ) : ℤ := ⌊q + 1 / 2⌋

/-- Dimension record returned by getNodeDimensions. -/
structure NodeDims where
  width : ℚ
  height : ℚ
  radius : ℚ
deriving DecidableEq

/-- getNodeDimensions of nodeUtils.ts: diamond shape or test type get a
70-square, circles base radius 40, everything else 100 × 50 with
radius `Math.round(25 * multiplier)`. -/
def getNodeDimensions (node : Node) : NodeDims :=
  let m := sizeMultiplier (nodeSizeClass node)
  let shape := getNodeShape node
  if shape = "diamond" ∨ node.type = NodeType.test then
    let adjustedSize : ℚ := (jsRound (70 * m) : ℤ)
    ⟨adjustedSize, adjustedSize, adjustedSize / 2⟩
  else if shape = "circle" then
    let adjustedRadius : ℚ := (jsRound (40 * m) : ℤ)
    ⟨adjustedRadius * 2, adjustedRadius * 2, adjustedRadius⟩
  else
    ⟨(jsRound (100 * m) : ℤ), (jsRound (50 * m) : ℤ), (jsRound (25 * m) : ℤ)⟩

/-- Edges connecting the same unordered node pair as `currentEdge`, in
either direction (the filter at the top of getEdgeOffset /
getEdgeOffsetForExport). -/
def relatedEdges (currentEdge : Edge) (allEdges : List Edge) : List Edge :=
  allEdges.filter fun edge =>
    (edge.source = currentEdge.source ∧ edge.target = currentEdge.target) ∨
    (edge.source = currentEdge.target ∧ edge.target = currentEdge.source)

/-- Lexicographic strict order on character lists by code point (the order
JavaScript's `<` places on strings). -/
def charListLt : List Char → List Char → Bool
  | [], [] => false
  | [], _ :: _ => true
  | _ :: _, [] => false
  | a :: as, b :: bs => if a < b then true else if b < a then false else charListLt as bs

/-- JavaScript `a < b` on strings. -/
def strLt (a b : String) : Bool := charListLt a.data b.data

/-- Weak ordering companion of `strLt` (the comparator order
`a.localeCompare(b) ≤ 0`, which agrees with the code-point order on the
application's lowercase-hex uuid ids). -/
def strLe (a b : String) : Bool := !(strLt b a)

/-- Sorting by edge id (`relatedEdges.sort((a, b) => a.id.localeCompare(b.id))`). -/
def sortEdgesById (l : List Edge) : List Edge :=
  l.insertionSort fun a b => strLe a.id b.id = true

/-- Array.prototype.findIndex: index of the first element satisfying `p`,
or −1 when none does. -/
def jsFindIndex (p : Edge → Bool) : List Edge → ℤ
  | [] => -1
  | e :: rest =>
    if p e then 0
    else
      let r := jsFindIndex p rest
      if r = -1 then -1 else r + 1

/-- getEdgeOffset of src/unnamed/part_005 (getEdgeOffsetForExport of
exportUtils.ts is line-for-line the same computation, with
EDGE_OFFSET_RANGE = 60). -/
def getEdgeOffset (currentEdge : Edge) (allEdges : List Edge) : ℚ :=
  let related := relatedEdges currentEdge allEdges
  if related.length ≤ 1 then 0
  else
    let sorted := sortEdgesById related
    let currentIndex : ℤ := jsFindIndex (fun e => e.id = currentEdge.id) sorted
    let totalEdges := sorted.length
    let offsetRange : ℚ := 60
    let orientationSign : ℚ := if strLt currentEdge.source currentEdge.target then 1 else -1
    if totalEdges = 2 then
      let baseOffset : ℚ := if currentIndex = 0 then -(offsetRange / 2) else offsetRange / 2
      baseOffset * orientationSign
    else
      let step : ℚ := if 1 < totalEdges then offsetRange / ((totalEdges : ℚ) - 1) else 0
      let baseOffset : ℚ := ((currentIndex : ℚ) - ((totalEdges : ℚ) - 1) / 2) * step
      baseOffset * orientationSign

/-! ## LaTeX content detection and escaping (exportUtils.ts 525-552) -/

/-- Word character of the regex class `\w`: letter, digit or underscore. -/
def isWordChar (c : Char) : Bool := c.isAlpha || c.isDigit || c = '_'

/-- Character matched by the regex metacharacter `.` (everything but the
ECMAScript line terminators). -/
def isDotChar (c : Char) : Bool :=
  !(c = '\n' || c = '\r' || c = '\u2028' || c = '\u2029')

/-- Match of `/\\\w+/`: a backslash immediately followed by a word
character. -/
def hasBackslashCommand : List Char → Bool
  | [] => false
  | [_] => false
  | a :: b :: rest => (a = '\\' && isWordChar b) || hasBackslashCommand (b :: rest)

/-- Match of `/\$.*?\$/`: a dollar sign with a later dollar sign separated
only by non-line-terminator characters. -/
def hasMathMode : List Char → Bool
  | [] => false
  | c :: rest => (c = '$' && (rest.takeWhile isDotChar).contains '$') || hasMathMode rest

/-- Match of `/\\[{}]/`: a backslash immediately followed by a brace. -/
def hasEscapedBrace : List Char → Bool
  | [] => false
  | [_] => false
  | a :: b :: rest => (a = '\\' && (b = lbrace || b = rbrace)) || hasEscapedBrace (b :: rest)

/-- Match of `/[_^]/`: the string contains an underscore or a caret. -/
def hasSubSup (l : List Char) : Bool := l.any fun c => c = '_' || c = '^'

/-- isLaTeXContent of exportUtils.ts: the label matches one of the fixed
regex patterns (the four literal-substring patterns `\frac{`, `\mathbb{`,
`\mathcal{`, `\text{` are kept even though `/\\\w+/` subsumes them). -/
def isLaTeXContent (text : String) : Bool :=
  hasBackslashCommand text.data ||
  hasMathMode text.data ||
  hasEscapedBrace text.data ||
  hasSubSup text.data ||
  decide (List.IsInfix ('\\' :: "frac".data ++ [lbrace]) text.data) ||
  decide (List.IsInfix ('\\' :: "mathbb".data ++ [lbrace]) text.data) ||
  decide (List.IsInfix ('\\' :: "mathcal".data ++ [lbrace]) text.data) ||
  decide (List.IsInfix ('\\' :: "text".data ++ [lbrace]) text.data)

/-- Global replacement of single characters: each character is replaced by
the list `f c` (the semantics of `String.replace` with a one-character
regex class and the `g` flag). -/
def charReplace (f : Char → List Char) : List Char → List Char
  | [] => []
  | c :: rest => f c ++ charReplace f rest

/-- Replacement `/([&%])/g → '\$1'` of the already-LaTeX branch. -/
def tikzBreakStep (c : Char) : List Char :=
  if c = '&' ∨ c = '%' then ['\\', c] else [c]

/-- Replacement `/\\/g → '\textbackslash{}'`. -/
def backslashStep (c : Char) : List Char :=
  if c = '\\' then '\\' :: "textbackslash".data ++ [lbrace, rbrace] else [c]

/-- Replacement `/[&%$#_{}]/g → '\$&'`. -/
def specialStep (c : Char) : List Char :=
  if c = '&' ∨ c = '%' ∨ c = '$' ∨ c = '#' ∨ c = '_' ∨ c = lbrace ∨ c = rbrace then
    ['\\', c]
  else [c]

/-- Replacement `/\^/g → '\textasciicircum{}'`. -/
def circumStep (c : Char) : List Char :=
  if c = '^' then '\\' :: "textasciicircum".data ++ [lbrace, rbrace] else [c]

/-- Replacement `/~/g → '\textasciitilde{}'`. -/
def tildeStep (c : Char) : List Char :=
  if c = '~' then '\\' :: "textasciitilde".data ++ [lbrace, rbrace] else [c]

/-- escapeLaTeXText of exportUtils.ts: content classified as LaTeX keeps
everything except `&` and `%`; plain text goes through the four
replacement passes in source order. -/
def escapeLaTeXText (text : String) : String :=
  if isLaTeXContent text then
    ⟨charReplace tikzBreakStep text.data⟩
  else
    ⟨charReplace tildeStep (charReplace circumStep
      (charReplace specialStep (charReplace backslashStep text.data)))⟩

/-! ## Connection points and edge geometry (exportUtils.ts 52-267; the
canvas versions in src/unnamed/part_005 lines 647-912 perform the same
computations) -/

/-- Math.atan2 y x: the argument of the complex number x + y·i. -/
noncomputable def atan2 (y x : ℝ) : ℝ := Complex.arg ⟨x, y⟩

/-- JavaScript `v || d`: `d` when `v` is 0, otherwise `v` (the fallback in
`Math.abs(normalizedDx || 1)`). -/
noncomputable def jsOrDefault (v d : ℝ) : ℝ := if v = 0 then d else v

/-- getNodeConnectionPointForExport of exportUtils.ts.  getNodeConnectionPoint
of src/unnamed/part_005 is the same computation except that its rectangle
case divides by `Math.abs(normalized…)` without the `|| 1` fallback; the
fallback is never exercised (see the rectangle-divisor theorem below), so
one definition serves both.  Its extra `case` labels (circle, triangle,
hexagon, star) all share the default circular branch. -/
noncomputable def getNodeConnectionPoint (node : Node) (targetPos : Point) : Point :=
  let nodeX := node.position.x
  let nodeY := node.position.y
  let dx := targetPos.x - nodeX
  let dy := targetPos.y - nodeY
  let distance := Real.sqrt (dx * dx + dy * dy)
  if distance = 0 then ⟨nodeX, nodeY⟩
  else
    let normalizedDx := dx / distance
    let normalizedDy := dy / distance
    let dimensions := getNodeDimensions node
    let shape := getNodeShape node
    let offset : ℝ × ℝ :=
      if shape = "ellipse" then
        let rx : ℝ := (dimensions.width : ℝ) / 2
        let ry : ℝ := (dimensions.height : ℝ) / 2
        let t := atan2 (normalizedDy * rx) (normalizedDx * ry)
        (rx * Real.cos t, ry * Real.sin t)
      else if shape = "rectangle" then
        let w : ℝ := (dimensions.width : ℝ) / 2
        let h : ℝ := (dimensions.height : ℝ) / 2
        if |normalizedDx| * h > |normalizedDy| * w then
          ((if normalizedDx > 0 then w else -w),
           normalizedDy * w / |jsOrDefault normalizedDx 1|)
        else
          (normalizedDx * h / |jsOrDefault normalizedDy 1|,
           (if normalizedDy > 0 then h else -h))
      else if shape = "diamond" then
        let diamondRadius : ℝ := (dimensions.radius : ℝ) * (8 / 10)
        (normalizedDx * diamondRadius, normalizedDy * diamondRadius)
      else
        (normalizedDx * (dimensions.radius : ℝ), normalizedDy * (dimensions.radius : ℝ))
    ⟨nodeX + offset.1, nodeY + offset.2⟩

/-- Geometry class of a routed edge. -/
inductive EdgeGeometryType
  | straight
  | curve
  | loop
deriving DecidableEq

/-- ExportEdgeGeometry of exportUtils.ts; `endPoint` embeds the source's
`end` field and a null labelAngle is `none`.  The `path` string, which the
source assembles from exactly the points kept here, is not modelled. -/
structure ExportEdgeGeometry where
  type : EdgeGeometryType
  start : Point
  endPoint : Point
  control : Option Point := none
  control2 : Option Point := none
  labelPosition : Point
  labelAngle : Option ℝ

/-- normalizeAngle of exportUtils.ts (normalizeLabelAngle of part_005):
fold a degree angle into (−90, 90]. -/
noncomputable def normalizeAngle (angleDeg : ℝ) : ℝ :=
  let a1 := if angleDeg > 180 then angleDeg - 360 else angleDeg
  let a2 := if a1 ≤ -180 then a1 + 360 else a1
  let a3 := if a2 > 90 then a2 - 180 else a2
  if a3 ≤ -90 then a3 + 180 else a3

/-- Math.sign of `offset || 1` as used for the curved label normal. -/
noncomputable def signOfOffset (offset : ℝ) : ℝ :=
  if jsOrDefault offset 1 > 0 then 1 else if jsOrDefault offset 1 < 0 then -1 else 0

/-- computeCurvedEdgeGeometry of exportUtils.ts (EDGE_LABEL_OFFSET = 14). -/
noncomputable def computeCurvedEdgeGeometry (sourceNode targetNode : Node) (offset : ℝ) :
    ExportEdgeGeometry :=
  let midX := (sourceNode.position.x + targetNode.position.x) / 2
  let midY := (sourceNode.position.y + targetNode.position.y) / 2
  let dx := targetNode.position.x - sourceNode.position.x
  let dy := targetNode.position.y - sourceNode.position.y
  let length := Real.sqrt (dx * dx + dy * dy)
  if length = 0 then
    let start := sourceNode.position
    let endPt := targetNode.position
    { type := .straight
      start := start
      endPoint := endPt
      labelPosition := ⟨(start.x + endPt.x) / 2, (start.y + endPt.y) / 2⟩
      labelAngle := some 0 }
  else
    let perpX := -dy / length
    let perpY := dx / length
    let controlX := midX + perpX * offset
    let controlY := midY + perpY * offset
    let controlPos : Point := ⟨controlX, controlY⟩
    let start := getNodeConnectionPoint sourceNode controlPos
    let endPt := getNodeConnectionPoint targetNode controlPos
    let t : ℝ := 1 / 2
    let oneMinusT := 1 - t
    let midPointX := oneMinusT * oneMinusT * start.x + 2 * oneMinusT * t * controlX + t * t * endPt.x
    let midPointY := oneMinusT * oneMinusT * start.y + 2 * oneMinusT * t * controlY + t * t * endPt.y
    let dxdt := 2 * oneMinusT * (controlX - start.x) + 2 * t * (endPt.x - controlX)
    let dydt := 2 * oneMinusT * (controlY - start.y) + 2 * t * (endPt.y - controlY)
    let tangentLength := jsOrDefault (Real.sqrt (dxdt * dxdt + dydt * dydt)) 1
    let normalX := -dydt / tangentLength * signOfOffset offset
    let normalY := dxdt / tangentLength * signOfOffset offset
    { type := .curve
      start := start
      endPoint := endPt
      control := some ⟨controlX, controlY⟩
      labelPosition := ⟨midPointX + normalX * 14, midPointY + normalY * 14⟩
      labelAngle := some (normalizeAngle (atan2 dydt dxdt * 180 / Real.pi)) }

/-- computeStraightEdgeGeometry of exportUtils.ts. -/
noncomputable def computeStraightEdgeGeometry (sourceNode targetNode : Node) :
    ExportEdgeGeometry :=
  let start := getNodeConnectionPoint sourceNode targetNode.position
  let endPt := getNodeConnectionPoint targetNode sourceNode.position
  let midX := (start.x + endPt.x) / 2
  let midY := (start.y + endPt.y) / 2
  let dx := endPt.x - start.x
  let dy := endPt.y - start.y
  let length := jsOrDefault (Real.sqrt (dx * dx + dy * dy)) 1
  let normalX := -dy / length
  let normalY := dx / length
  { type := .straight
    start := start
    endPoint := endPt
    labelPosition := ⟨midX + normalX * (14 - 2), midY + normalY * (14 - 2)⟩
    labelAngle := some (normalizeAngle (atan2 dy dx * 180 / Real.pi)) }

/-- computeLoopEdgeGeometry of exportUtils.ts. -/
noncomputable def computeLoopEdgeGeometry (node : Node) : ExportEdgeGeometry :=
  let dimensions := getNodeDimensions node
  let shape := getNodeShape node
  let loopStart : Point :=
    if shape = "rectangle" then
      ⟨node.position.x + (dimensions.width : ℝ) / 2, node.position.y - (dimensions.height : ℝ) / 4⟩
    else
      ⟨node.position.x + (dimensions.radius : ℝ) * (7 / 10),
       node.position.y - (dimensions.radius : ℝ) * (7 / 10)⟩
  let loopEnd : Point :=
    if shape = "rectangle" then
      ⟨node.position.x + (dimensions.width : ℝ) / 2, node.position.y + (dimensions.height : ℝ) / 4⟩
    else
      ⟨node.position.x + (dimensions.radius : ℝ) * (7 / 10),
       node.position.y + (dimensions.radius : ℝ) * (7 / 10)⟩
  let loopSize := max (dimensions.width : ℝ) (dimensions.height : ℝ) * (8 / 10)
  { type := .loop
    start := loopStart
    endPoint := loopEnd
    control := some ⟨loopStart.x + loopSize, loopStart.y⟩
    control2 := some ⟨loopEnd.x + loopSize, loopEnd.y⟩
    labelPosition :=
      ⟨node.position.x + max (dimensions.width : ℝ) (dimensions.height : ℝ) * (8 / 10),
       node.position.y - max (dimensions.height : ℝ) 40 * (6 / 10)⟩
    labelAngle := none }

/-- computeEdgeGeometryForExport of exportUtils.ts: null when an endpoint
id resolves to no node, a self-loop when source equals target, straight
when the offset is 0, otherwise a quadratic curve. -/
noncomputable def computeEdgeGeometry (edge : Edge) (nodes : List Node) (allEdges : List Edge) :
    Option ExportEdgeGeometry :=
  match nodes.find? (fun n => n.id = edge.source), nodes.find? (fun n => n.id = edge.target) with
  | some sourceNode, some targetNode =>
    if edge.source = edge.target then
      some (computeLoopEdgeGeometry sourceNode)
    else if getEdgeOffset edge allEdges = 0 then
      some (computeStraightEdgeGeometry sourceNode targetNode)
    else
      some (computeCurvedEdgeGeometry sourceNode targetNode ((getEdgeOffset edge allEdges : ℚ) : ℝ))
  | _, _ => none

/-! ## Serialization of edge geometry (exportAsSVG 397-430, generateTikZCode
632-683 of exportUtils.ts) -/

/-- Diagram bounds of calculateDiagramBounds; the fold over nodes starting
from ±Infinity accumulators is modelled by seeding the fold with the first
node's padded coordinates. -/
structure Bounds where
  minX : ℝ
  minY : ℝ
  maxX : ℝ
  maxY : ℝ
  width : ℝ
  height : ℝ

/-- calculateDiagramBounds of exportUtils.ts: 100 units of padding around
every node position, with a 400 × 300 default for an empty diagram. -/
noncomputable def calculateDiagramBounds (nodes : List Node) : Bounds :=
  match nodes with
  | [] => ⟨0, 0, 400, 300, 400, 300⟩
  | n :: rest =>
    let minX := rest.foldl (fun acc nd => min acc (nd.position.x - 100)) (n.position.x - 100)
    let minY := rest.foldl (fun acc nd => min acc (nd.position.y - 100)) (n.position.y - 100)
    let maxX := rest.foldl (fun acc nd => max acc (nd.position.x + 100)) (n.position.x + 100)
    let maxY := rest.foldl (fun acc nd => max acc (nd.position.y + 100)) (n.position.y + 100)
    ⟨minX, minY, maxX, maxY, maxX - minX, maxY - minY⟩

/-- Numeric value of `value.toFixed(2)`: the nearest multiple of 1/100,
ties toward the larger numerator (a real value is always finite, so the
`Number.isFinite` fallback to '0' of formatNumber does not arise). -/
noncomputable def round2 (v : ℝ) : ℝ := (⌊v * 100 + 1 / 2⌋ : ℤ) / 100

/-- Componentwise two-decimal rounding of an emitted point. -/
noncomputable def round2Point (p : Point) : Point := ⟨round2 p.x, round2 p.y⟩

/-- Points of the SVG path datum for one edge, in emission order: the
`geometry.type === 'curve' && geometry.control` / `'loop' && control &&
control2` / straight fallback cascade of exportAsSVG. -/
def svgPathPoints (g : ExportEdgeGeometry) : List Point :=
  match g.type, g.control, g.control2 with
  | .curve, some c, _ => [g.start, c, g.endPoint]
  | .loop, some c1, some c2 => [g.start, c1, c2, g.endPoint]
  | _, _, _ => [g.start, g.endPoint]

/-- Edge points the SVG serializer emits (after formatNumber's two-decimal
rounding), or none for an edge it skips. -/
noncomputable def svgEmittedEdgePoints (edge : Edge) (nodes : List Node) (allEdges : List Edge) :
    Option (List Point) :=
  (computeEdgeGeometry edge nodes allEdges).map fun g =>
    (svgPathPoints g).map round2Point

/-- convertPoint of generateTikZCode before its toFixed rounding: recentre,
scale, flip the y axis. -/
noncomputable def convertPoint (centerX centerY scale : ℝ) (p : Point) : Point :=
  ⟨(p.x - centerX) * scale, -((p.y - centerY) * scale)⟩

/-- Points of the TikZ `\draw` for one edge, in emission order (the curve /
loop / straight cascade of generateTikZCode). -/
def tikzDrawPoints (g : ExportEdgeGeometry) : List Point :=
  match g.type, g.control, g.control2 with
  | .curve, some c, _ => [g.start, c, g.endPoint]
  | .loop, some c1, some c2 => [g.start, c1, c2, g.endPoint]
  | _, _, _ => [g.start, g.endPoint]

/-- Edge points the TikZ serializer emits for one edge: the geometry's
points through convertPoint with generateTikZCode's centre and scale, then
two-decimal rounding.  (When the node list is empty the serializer
early-returns an empty picture; computeEdgeGeometry is then `none` for
every edge, so the per-edge value below is `none` as well.) -/
noncomputable def tikzEmittedEdgePoints (edge : Edge) (nodes : List Node) (allEdges : List Edge) :
    Option (List Point) :=
  let bounds := calculateDiagramBounds nodes
  let centerX := (bounds.minX + bounds.maxX) / 2
  let centerY := (bounds.minY + bounds.maxY) / 2
  let maxDimension := max bounds.width bounds.height
  let scale := if maxDimension > 0 then 15 / maxDimension else 1
  (computeEdgeGeometry edge nodes allEdges).map fun g =>
    (tikzDrawPoints g).map fun p => round2Point (convertPoint centerX centerY scale p)

/-! ## Diagram reducer: deleteNode (src/unnamed/part_001, lines 93-105) -/

/-- Nodes and edges of the current diagram (entry/exit points and metadata
are not read by deleteNode's filters; the metadata timestamp update is not
modelled). -/
structure DiagramData where
  nodes : List Node
  edges : List Edge

/-- Slice state: the current diagram (possibly null) and the selection. -/
structure DiagramState where
  currentDiagram : Option DiagramData
  selectedItems : List String

/-- deleteNode reducer: drop the node with the given id, every edge whose
source or target is that id, and the id from the selection; a null current
diagram is left untouched. -/
def deleteNode (state : DiagramState) (nodeId : String) : DiagramState :=
  match state.currentDiagram with
  | none => state
  | some d =>
    { currentDiagram := some
        { nodes := d.nodes.filter fun n => ¬ n.id = nodeId
          edges := d.edges.filter fun e => ¬ e.source = nodeId ∧ ¬ e.target = nodeId }
      selectedItems := state.selectedItems.filter fun i => ¬ i = nodeId }

/-- Referential integrity of a diagram: every edge endpoint id names a node
of the diagram. -/
def edgesConsistent (d : DiagramData) : Prop :=
  ∀ e ∈ d.edges,
    (∃ n ∈ d.nodes, n.id = e.source) ∧ (∃ n ∈ d.nodes, n.id = e.target)

/-! ## Sample data used by witnesses and counterexamples -/

/-- Sample node with id "a" at the origin. -/
def nodeA : Node := ⟨"a", .custom, ⟨0, 0⟩, none⟩

/-- Sample node with id "b" at (200, 0). -/
def nodeB : Node := ⟨"b", .custom, ⟨200, 0⟩, none⟩

/-- Sample edge a → b. -/
def edgeAB : Edge := ⟨"e1", "a", "b"⟩

/-- Sample edge b → a. -/
def edgeBA : Edge := ⟨"e2", "b", "a"⟩

/-- Sample practice node (default shape: rectangle, default size: medium). -/
def practiceNode : Node := ⟨"p", .practice, ⟨0, 0⟩, none⟩

/-- Sample test node (default shape: diamond, default size: medium). -/
def testNode : Node := ⟨"t", .test, ⟨0, 0⟩, none⟩

/-! ## Shared helper lemmas -/

theorem sq_sum_pos_of_not_both_zero {dx dy : ℝ} (h : ¬(dx = 0 ∧ dy = 0)) :
    0 < dx * dx + dy * dy := by
  rcases not_and_or.mp h with h | h
  · nlinarith [mul_self_pos.mpr h, mul_self_nonneg dy]
  · nlinarith [mul_self_pos.mpr h, mul_self_nonneg dx]

theorem sqrt_sq_sum_ne_zero {dx dy : ℝ} (h : ¬(dx = 0 ∧ dy = 0)) :
    Real.sqrt (dx * dx + dy * dy) ≠ 0 :=
  ne_of_gt (Real.sqrt_pos.mpr (sq_sum_pos_of_not_both_zero h))

theorem normalized_sq_sum {dx dy : ℝ} (h : ¬(dx = 0 ∧ dy = 0)) :
    (dx / Real.sqrt (dx * dx + dy * dy)) ^ 2 + (dy / Real.sqrt (dx * dx + dy * dy)) ^ 2 = 1 := by
  have hp := sq_sum_pos_of_not_both_zero h
  have hs : Real.sqrt (dx * dx + dy * dy) ^ 2 = dx * dx + dy * dy := Real.sq_sqrt hp.le
  have hne := sqrt_sq_sum_ne_zero h
  field_simp
  nlinarith [hs]

theorem diff_not_both_zero {node : Node} {t : Point} (h : t ≠ node.position) :
    ¬(t.x - node.position.x = 0 ∧ t.y - node.position.y = 0) := by
  rintro ⟨hx, hy⟩
  exact h (Point.ext_xy (by linarith) (by linarith))

/-! ## C6: coincident target short-circuits to the node center -/

/-- C6: when the target point coincides with the node's position the
direction vector has length zero, `distance === 0` short-circuits, and
getNodeConnectionPoint returns the node's center without dividing by
anything. -/
theorem connectionPoint_at_center (node : Node) :
    getNodeConnectionPoint node node.position = node.position := by
  unfold getNodeConnectionPoint
  simp

/-! ## C5: computeEdgeGeometry is null exactly for dangling edges -/

/-- C5: computeEdgeGeometry returns none exactly when the edge's source id
or target id names no node of the collection; with both endpoints resolved
every branch returns a geometry (the function is total, so the dangling
case is a null result, never a thrown error). -/
theorem computeEdgeGeometry_none_iff (edge : Edge) (nodes : List Node) (allEdges : List Edge) :
    computeEdgeGeometry edge nodes allEdges = none ↔
      (∀ n ∈ nodes, n.id ≠ edge.source) ∨ (∀ n ∈ nodes, n.id ≠ edge.target) := by
  unfold computeEdgeGeometry
  rcases h1 : nodes.find? (fun n => n.id = edge.source) with _ | s
  · rw [h1]
    have := List.find?_eq_none.mp h1
    constructor
    · intro _
      exact Or.inl fun n hn => by simpa using this n hn
    · intro _
      rfl
  · rw [h1]
    rcases h2 : nodes.find? (fun n => n.id = edge.target) with _ | t
    · rw [h2]
      have := List.find?_eq_none.mp h2
      constructor
      · intro _
        exact Or.inr fun n hn => by simpa using this n hn
      · intro _
        rfl
    · rw [h2]
      have hs : s.id = edge.source := by simpa using List.find?_some h1
      have hsm : s ∈ nodes := List.mem_of_find?_eq_some h1
      have ht : t.id = edge.target := by simpa using List.find?_some h2
      have htm : t ∈ nodes := List.mem_of_find?_eq_some h2
      constructor
      · intro h
        split_ifs at h <;> exact Option.noConfusion h
      · rintro (h | h)
        · exact absurd hs (h s hsm)
        · exact absurd ht (h t htm)

/-! ## C10: deleteNode removes the node and exactly its incident edges -/

/-- C10: deleteNode keeps exactly the nodes with a different id and exactly
the edges incident to no removed id, and it preserves referential
integrity of the edge list. -/
theorem deleteNode_spec (st : DiagramState) (d : DiagramData) (nodeId : String)
    (hcur : st.currentDiagram = some d) :
    ∃ d', (deleteNode st nodeId).currentDiagram = some d' ∧
      (∀ n : Node, n ∈ d'.nodes ↔ n ∈ d.nodes ∧ n.id ≠ nodeId) ∧
      (∀ e : Edge, e ∈ d'.edges ↔ e ∈ d.edges ∧ e.source ≠ nodeId ∧ e.target ≠ nodeId) ∧
      (edgesConsistent d → edgesConsistent d') := by
  refine ⟨⟨d.nodes.filter fun n => ¬ n.id = nodeId,
           d.edges.filter fun e => ¬ e.source = nodeId ∧ ¬ e.target = nodeId⟩, ?_, ?_, ?_, ?_⟩
  · simp [deleteNode, hcur]
  · intro n
    simp [List.mem_filter]
  · intro e
    simp [List.mem_filter, and_assoc]
  · intro hc e he
    simp only [List.mem_filter, decide_eq_true_eq] at he
    obtain ⟨he', hcond⟩ := he
    obtain ⟨⟨ns, hns, hnsid⟩, ⟨nt, hnt, hntid⟩⟩ := hc e he'
    constructor
    · exact ⟨ns, List.mem_filter.mpr ⟨hns, by simpa [hnsid] using hcond.1⟩, hnsid⟩
    · exact ⟨nt, List.mem_filter.mpr ⟨hnt, by simpa [hntid] using hcond.2⟩, hntid⟩

/-- Witness for C10 at a concrete one-node, one-edge diagram. -/
theorem deleteNode_spec_witness :
    ∃ d', (deleteNode ⟨some ⟨[nodeA], [edgeAB]⟩, ["a"]⟩ "a").currentDiagram = some d' ∧
      (∀ n : Node, n ∈ d'.nodes ↔ n ∈ [nodeA] ∧ n.id ≠ "a") ∧
      (∀ e : Edge, e ∈ d'.edges ↔ e ∈ [edgeAB] ∧ e.source ≠ "a" ∧ e.target ≠ "a") ∧
      (edgesConsistent ⟨[nodeA], [edgeAB]⟩ → edgesConsistent d') :=
  deleteNode_spec ⟨some ⟨[nodeA], [edgeAB]⟩, ["a"]⟩ ⟨[nodeA], [edgeAB]⟩ "a" rfl

/-! ## C8: getNodeDimensions values -/

/-- Counterexample for C8 as frozen: a default (medium) rectangle node gets
radius 25 — `Math.round(25 * multiplier)`, a quarter of the base width —
not the claimed 50 (half the base width). -/
theorem nodeDims_radius_counterexample :
    (getNodeDimensions practiceNode).radius = 25 ∧
    ¬ (getNodeDimensions practiceNode).radius = 50 := by
  have h : getNodeDimensions practiceNode = ⟨100, 50, 25⟩ := by
    unfold getNodeDimensions
    rw [if_neg (by decide), if_neg (by decide)]
    norm_num [nodeSizeClass, practiceNode, sizeMultiplier, jsRound, NodeDims.mk.injEq]
  rw [h]
  norm_num

/-- C8 (amended): the size multiplier is small = 0.8, medium = 1, large =
1.3; diamond-shaped and test-type nodes get a 70-square scaled and rounded
with radius half the width; circles get base radius 40 scaled and rounded
with width = height = 2·radius; every other shape gets 100 × 50 scaled and
rounded with radius `Math.round(25·multiplier)` — a quarter of the base
width, not half of it. -/
theorem getNodeDimensions_values (node : Node) :
    ((getNodeShape node = "diamond" ∨ node.type = NodeType.test) →
      (nodeSizeClass node = .small → getNodeDimensions node = ⟨56, 56, 28⟩) ∧
      (nodeSizeClass node = .medium → getNodeDimensions node = ⟨70, 70, 35⟩) ∧
      (nodeSizeClass node = .large → getNodeDimensions node = ⟨91, 91, 91 / 2⟩)) ∧
    (¬(getNodeShape node = "diamond" ∨ node.type = NodeType.test) →
      getNodeShape node = "circle" →
      (nodeSizeClass node = .small → getNodeDimensions node = ⟨64, 64, 32⟩) ∧
      (nodeSizeClass node = .medium → getNodeDimensions node = ⟨80, 80, 40⟩) ∧
      (nodeSizeClass node = .large → getNodeDimensions node = ⟨104, 104, 52⟩)) ∧
    (¬(getNodeShape node = "diamond" ∨ node.type = NodeType.test) →
      ¬ getNodeShape node = "circle" →
      (nodeSizeClass node = .small → getNodeDimensions node = ⟨80, 40, 20⟩) ∧
      (nodeSizeClass node = .medium → getNodeDimensions node = ⟨100, 50, 25⟩) ∧
      (nodeSizeClass node = .large → getNodeDimensions node = ⟨130, 65, 33⟩)) := by
  refine ⟨?_, ?_, ?_⟩
  · intro hbr
    refine ⟨?_, ?_, ?_⟩ <;> intro hsz <;>
      · unfold getNodeDimensions
        rw [hsz, if_pos hbr]
        norm_num [sizeMultiplier, jsRound, NodeDims.mk.injEq]
  · intro hbr hcirc
    refine ⟨?_, ?_, ?_⟩ <;> intro hsz <;>
      · unfold getNodeDimensions
        rw [hsz, if_neg hbr, if_pos hcirc]
        norm_num [sizeMultiplier, jsRound, NodeDims.mk.injEq]
  · intro hbr hcirc
    refine ⟨?_, ?_, ?_⟩ <;> intro hsz <;>
      · unfold getNodeDimensions
        rw [hsz, if_neg hbr, if_neg hcirc]
        norm_num [sizeMultiplier, jsRound, NodeDims.mk.injEq]

/-- Witness for C8 at a concrete medium test node: diamond branch. -/
theorem getNodeDimensions_values_witness :
    getNodeDimensions testNode = ⟨70, 70, 35⟩ :=
  ((getNodeDimensions_values testNode).1 (Or.inr rfl)).2.1 rfl

/-! ## C4: LaTeX classification and escaping -/

/-- Escaping of the classified branch as the amended claim states it: only
`%` and `&` receive a backslash, every other character (including `#`, the
backslash and the caret) is kept. -/
def specTikzEscapeChar (c : Char) : List Char :=
  if c = '%' ∨ c = '&' then ['\\', c] else [c]

/-- Full escaping of the plain branch as the amended claim states it, one
character at a time: a backslash becomes `\textbackslash\{\}` (its braces
are escaped in turn by the later character-class pass), the specials
`& % $ # _ { }` get a backslash, the caret and tilde become their
text-command spellings with unescaped braces. -/
def specFullEscapeChar (c : Char) : List Char :=
  if c = '\\' then '\\' :: "textbackslash".data ++ ['\\', lbrace, '\\', rbrace]
  else if c = '&' ∨ c = '%' ∨ c = '$' ∨ c = '#' ∨ c = '_' ∨ c = lbrace ∨ c = rbrace then
    ['\\', c]
  else if c = '^' then '\\' :: "textasciicircum".data ++ [lbrace, rbrace]
  else if c = '~' then '\\' :: "textasciitilde".data ++ [lbrace, rbrace]
  else [c]

theorem charReplace_append (f : Char → List Char) (l1 l2 : List Char) :
    charReplace f (l1 ++ l2) = charReplace f l1 ++ charReplace f l2 := by
  induction l1 with
  | nil => rfl
  | cons c rest ih => simp [charReplace, ih]

theorem charReplace_comp (f g : Char → List Char) (l : List Char) :
    charReplace g (charReplace f l) = charReplace (fun c => charReplace g (f c)) l := by
  induction l with
  | nil => rfl
  | cons c rest ih => simp [charReplace, charReplace_append, ih]

theorem fullEscape_char (c : Char) :
    charReplace tildeStep (charReplace circumStep (charReplace specialStep (backslashStep c))) =
      specFullEscapeChar c := by
  by_cases h1 : c = '\\'
  · subst h1; decide
  by_cases h2 : c = '&'
  · subst h2; decide
  by_cases h3 : c = '%'
  · subst h3; decide
  by_cases h4 : c = '$'
  · subst h4; decide
  by_cases h5 : c = '#'
  · subst h5; decide
  by_cases h6 : c = '_'
  · subst h6; decide
  by_cases h7 : c = lbrace
  · subst h7; decide
  by_cases h8 : c = rbrace
  · subst h8; decide
  by_cases h9 : c = '^'
  · subst h9; decide
  by_cases h10 : c = '~'
  · subst h10; decide
  · simp [backslashStep, specialStep, circumStep, tildeStep, specFullEscapeChar, charReplace,
      h1, h2, h3, h4, h5, h6, h7, h8, h9, h10]

theorem fullEscape_list (l : List Char) :
    charReplace tildeStep (charReplace circumStep
      (charReplace specialStep (charReplace backslashStep l))) =
      charReplace specFullEscapeChar l := by
  induction l with
  | nil => rfl
  | cons c rest ih =>
    simp only [charReplace, charReplace_append]
    rw [ih, fullEscape_char c]

/-- Counterexample for C4 as frozen: the label `a_#` is classified as LaTeX
(it contains an underscore) and contains `#`, yet escapeLaTeXText leaves it
completely unchanged — only `%` and `&` are escaped in the classified
branch, `#` is not. -/
theorem escapeLaTeX_hash_counterexample :
    isLaTeXContent "a_#" = true ∧ escapeLaTeXText "a_#" = "a_#" := by
  constructor
  · decide
  · decide

/-- C4 (amended): a label matching the fixed pattern set is classified as
already-LaTeX and only `%` and `&` are escaped in it (`#`, backslash and
caret are preserved); otherwise the full escaping pipeline applies.  In
particular `x^2 + y^2 = 1` is classified as math and survives unchanged,
while `50% off` is plain and becomes `50\% off`. -/
theorem escapeLaTeXText_spec :
    isLaTeXContent "x^2 + y^2 = 1" = true ∧
    escapeLaTeXText "x^2 + y^2 = 1" = "x^2 + y^2 = 1" ∧
    isLaTeXContent "50% off" = false ∧
    escapeLaTeXText "50% off" = "50\\% off" ∧
    (∀ s : String, isLaTeXContent s = true →
      escapeLaTeXText s = ⟨charReplace specTikzEscapeChar s.data⟩) ∧
    (∀ s : String, isLaTeXContent s = false →
      escapeLaTeXText s = ⟨charReplace specFullEscapeChar s.data⟩) := by
  refine ⟨by decide, by decide, by decide, by decide, ?_, ?_⟩
  · intro s hs
    unfold escapeLaTeXText
    rw [if_pos hs]
    have : ∀ l : List Char, charReplace tikzBreakStep l = charReplace specTikzEscapeChar l := by
      intro l
      induction l with
      | nil => rfl
      | cons c rest ih =>
        simp only [charReplace, ih, tikzBreakStep, specTikzEscapeChar, or_comm]
    rw [this]
  · intro s hs
    unfold escapeLaTeXText
    rw [if_neg (by simp [hs])]
    exact congrArg String.mk (fullEscape_list s.data)

/-! ## C2: getEdgeOffset formula -/

theorem jsFindIndex_get_of_nodup (l : List Edge) (hn : (l.map Edge.id).Nodup)
    (i : ℕ) (hi : i < l.length) :
    jsFindIndex (fun e => e.id = (l.get ⟨i, hi⟩).id) l = (i : ℤ) := by
  induction l generalizing i with
  | nil => exact absurd hi (Nat.not_lt_zero i)
  | cons a t ih =>
    rw [List.map_cons, List.nodup_cons] at hn
    rcases i with _ | j
    · simp [jsFindIndex]
    · have hj : j < t.length := Nat.lt_of_succ_lt_succ hi
      have hget : (a :: t).get ⟨j + 1, hi⟩ = t.get ⟨j, hj⟩ := rfl
      have hpa : ¬ (a.id = (t.get ⟨j, hj⟩).id) := by
        intro h
        exact hn.1 (h ▸ List.mem_map_of_mem Edge.id (t.get_mem j hj))
      have hrec := ih hn.2 j hj
      rw [hget]
      simp only [jsFindIndex, hpa, decide_eq_true_eq, if_false, decide_False]
      rw [hrec]
      have : ((j : ℤ)) ≠ -1 := by omega
      simp only [this, if_false]
      push_cast
      ring

theorem length_sortEdgesById (l : List Edge) : (sortEdgesById l).length = l.length :=
  (List.perm_insertionSort (fun a b : Edge => strLe a.id b.id = true) l).length_eq

theorem nodup_ids_sortEdgesById {l : List Edge} (h : (l.map Edge.id).Nodup) :
    ((sortEdgesById l).map Edge.id).Nodup :=
  (((List.perm_insertionSort (fun a b : Edge => strLe a.id b.id = true) l).map
    Edge.id).nodup_iff).mpr h

theorem nodup_ids_relatedEdges (c : Edge) {all : List Edge} (h : (all.map Edge.id).Nodup) :
    ((relatedEdges c all).map Edge.id).Nodup :=
  h.sublist ((List.filter_sublist all).map Edge.id)

/-- C2: with unique edge ids, an edge with no parallel companion gets
offset 0, and with n ≥ 2 related edges the edge at sorted index i gets
`(i − (n−1)/2) · (60/(n−1))` times the orientation sign
(+1 when source id < target id, −1 otherwise).  For n = 2 exactly this
yields the ±30 of the dedicated two-edge branch. -/
theorem getEdgeOffset_spec (currentEdge : Edge) (allEdges : List Edge)
    (hnodup : (allEdges.map Edge.id).Nodup) :
    ((relatedEdges currentEdge allEdges).length = 1 →
      getEdgeOffset currentEdge allEdges = 0) ∧
    (∀ i : ℕ, ∀ hi : i < (sortEdgesById (relatedEdges currentEdge allEdges)).length,
      2 ≤ (relatedEdges currentEdge allEdges).length →
      ((sortEdgesById (relatedEdges currentEdge allEdges)).get ⟨i, hi⟩).id = currentEdge.id →
      getEdgeOffset currentEdge allEdges =
        (((i : ℚ) - (((relatedEdges currentEdge allEdges).length : ℚ) - 1) / 2) *
            (60 / (((relatedEdges currentEdge allEdges).length : ℚ) - 1))) *
          (if strLt currentEdge.source currentEdge.target then 1 else -1)) := by
  constructor
  · intro h1
    simp only [getEdgeOffset]
    rw [if_pos (by omega)]
  · intro i hi hn2 hid
    have hlen := length_sortEdgesById (relatedEdges currentEdge allEdges)
    have hns := nodup_ids_sortEdgesById (nodup_ids_relatedEdges currentEdge hnodup)
    have hidx : jsFindIndex (fun e => e.id = currentEdge.id)
        (sortEdgesById (relatedEdges currentEdge allEdges)) = (i : ℤ) := by
      have h := jsFindIndex_get_of_nodup (sortEdgesById (relatedEdges currentEdge allEdges))
        hns i hi
      rw [hid] at h
      exact h
    simp only [getEdgeOffset]
    rw [if_neg (by omega)]
    rw [hidx, hlen]
    by_cases h2 : (relatedEdges currentEdge allEdges).length = 2
    · rw [if_pos h2, h2]
      have hi2 : i < 2 := by omega
      interval_cases i
      · norm_num
      · norm_num
    · rw [if_neg h2, if_pos (by omega)]
      push_cast
      ring

/-- Witness for C2: for the concrete bidirectional pair `e1 : a → b`,
`e2 : b → a`, edge e1 sits at sorted index 0 of 2, so its offset is
(0 − 1/2) · 60 · (+1) = −30. -/
theorem getEdgeOffset_spec_witness : getEdgeOffset edgeAB [edgeAB, edgeBA] = -30 := by
  have h := (getEdgeOffset_spec edgeAB [edgeAB, edgeBA] (by decide)).2 0 (by decide) (by decide)
    (by decide)
  rw [h]
  have hl : (relatedEdges edgeAB [edgeAB, edgeBA]).length = 2 := by decide
  have hab : strLt edgeAB.source edgeAB.target = true := by decide
  rw [hl, if_pos hab]
  norm_num

/-! ## C3: bidirectional edge pairs -/

theorem charListLt_asymm : ∀ {a b : List Char}, charListLt a b = true → charListLt b a = false := by
  intro a
  induction a with
  | nil =>
    intro b h
    cases b with
    | nil => simp [charListLt] at h
    | cons c cs => simp [charListLt]
  | cons x xs ih =>
    intro b h
    cases b with
    | nil => simp [charListLt] at h
    | cons y ys =>
      simp only [charListLt] at h ⊢
      by_cases h1 : x < y
      · rw [if_neg (asymm h1), if_pos h1]
      · by_cases h2 : y < x
        · rw [if_neg h1, if_pos h2] at h
          exact absurd h (by simp)
        · rw [if_neg h1, if_neg h2] at h
          rw [if_neg h2, if_neg h1]
          exact ih h

theorem charListLt_connex : ∀ {a b : List Char}, a ≠ b →
    charListLt a b = true ∨ charListLt b a = true := by
  intro a
  induction a with
  | nil =>
    intro b hne
    cases b with
    | nil => exact absurd rfl hne
    | cons c cs => exact Or.inl (by simp [charListLt])
  | cons x xs ih =>
    intro b hne
    cases b with
    | nil => exact Or.inr (by simp [charListLt])
    | cons y ys =>
      by_cases h1 : x < y
      · exact Or.inl (by simp only [charListLt]; rw [if_pos h1])
      · by_cases h2 : y < x
        · exact Or.inr (by simp only [charListLt]; rw [if_pos h2])
        · have hxy : x = y := le_antisymm (not_lt.mp h2) (not_lt.mp h1)
          subst hxy
          have htl : xs ≠ ys := fun h => hne (by rw [h])
          rcases ih htl with h | h
          · exact Or.inl (by simp only [charListLt]; rw [if_neg h1, if_neg h1]; exact h)
          · exact Or.inr (by simp only [charListLt]; rw [if_neg h1, if_neg h1]; exact h)

theorem strLt_asymm {a b : String} (h : strLt a b = true) : strLt b a = false :=
  charListLt_asymm h

theorem strLt_connex {a b : String} (h : a ≠ b) : strLt a b = true ∨ strLt b a = true :=
  charListLt_connex fun hd => h (by cases a; cases b; simp_all)

/-- Evaluation of getEdgeOffset on an isolated bidirectional pair: the
sorted index is decided by the id comparison and the orientation sign by
the source/target comparison. -/
theorem getEdgeOffset_pair_eval (e1 e2 : Edge)
    (hs2 : e2.source = e1.target) (ht2 : e2.target = e1.source)
    (hst : e1.source ≠ e1.target) (hid : e1.id ≠ e2.id) :
    getEdgeOffset e1 [e1, e2] =
      (if strLe e1.id e2.id then -(30 : ℚ) else 30) *
        (if strLt e1.source e1.target then 1 else -1) ∧
    getEdgeOffset e2 [e1, e2] =
      (if strLe e1.id e2.id then (30 : ℚ) else -30) *
        (if strLt e1.target e1.source then 1 else -1) := by
  have hrel1 : relatedEdges e1 [e1, e2] = [e1, e2] := by
    simp [relatedEdges, List.filter, hs2, ht2]
  have hrel2 : relatedEdges e2 [e1, e2] = [e1, e2] := by
    have h1 : e1.source = e2.target := ht2.symm
    have h2 : e1.target = e2.source := hs2.symm
    simp [relatedEdges, List.filter, h1, h2]
  have hsign : strLt e2.source e2.target = strLt e1.target e1.source := by
    rw [hs2, ht2]
  constructor
  · simp only [getEdgeOffset]
    rw [hrel1]
    rw [if_neg (show ¬ ([e1, e2].length ≤ 1) by simp)]
    by_cases hc : strLe e1.id e2.id = true
    · have hsort : sortEdgesById [e1, e2] = [e1, e2] := by
        simp [sortEdgesById, List.insertionSort, List.orderedInsert, hc]
      have hidx : jsFindIndex (fun e => e.id = e1.id) [e1, e2] = 0 := by
        simp [jsFindIndex]
      rw [hsort, hidx]
      rw [if_pos (show ([e1, e2].length = 2) by simp)]
      rw [if_pos rfl, if_pos hc]
      norm_num
    · have hsort : sortEdgesById [e1, e2] = [e2, e1] := by
        simp [sortEdgesById, List.insertionSort, List.orderedInsert, hc]
      have hidx : jsFindIndex (fun e => e.id = e1.id) [e2, e1] = 1 := by
        norm_num [jsFindIndex, Ne.symm hid]
      rw [hsort, hidx]
      rw [if_pos (show ([e2, e1].length = 2) by simp)]
      rw [if_neg (show ¬ ((1 : ℤ) = 0) by norm_num), if_neg hc]
      norm_num
  · simp only [getEdgeOffset]
    rw [hrel2]
    rw [if_neg (show ¬ ([e1, e2].length ≤ 1) by simp)]
    by_cases hc : strLe e1.id e2.id = true
    · have hsort : sortEdgesById [e1, e2] = [e1, e2] := by
        simp [sortEdgesById, List.insertionSort, List.orderedInsert, hc]
      have hidx : jsFindIndex (fun e => e.id = e2.id) [e1, e2] = 1 := by
        norm_num [jsFindIndex, hid]
      rw [hsort, hidx]
      rw [if_pos (show ([e1, e2].length = 2) by simp)]
      rw [if_neg (show ¬ ((1 : ℤ) = 0) by norm_num), hsign, if_pos hc]
      norm_num
    · have hsort : sortEdgesById [e1, e2] = [e2, e1] := by
        simp [sortEdgesById, List.insertionSort, List.orderedInsert, hc]
      have hidx : jsFindIndex (fun e => e.id = e2.id) [e2, e1] = 0 := by
        simp [jsFindIndex]
      rw [hsort, hidx]
      rw [if_pos (show ([e2, e1].length = 2) by simp)]
      rw [if_pos rfl, hsign, if_neg hc]
      norm_num

/-- Counterexample for C3 as frozen: for the pair a → b, b → a the two
offsets are both −30 — equal magnitude but the same value, not opposite
signs. -/
theorem bidirectional_offsets_counterexample :
    getEdgeOffset edgeAB [edgeAB, edgeBA] = -30 ∧
    getEdgeOffset edgeBA [edgeAB, edgeBA] = -30 ∧
    ¬ getEdgeOffset edgeAB [edgeAB, edgeBA] = -(getEdgeOffset edgeBA [edgeAB, edgeBA]) := by
  obtain ⟨h1, h2⟩ := getEdgeOffset_pair_eval edgeAB edgeBA rfl rfl (by decide) (by decide)
  have hle : strLe edgeAB.id edgeBA.id = true := by decide
  have hab : strLt edgeAB.source edgeAB.target = true := by decide
  have hba : ¬ strLt edgeAB.target edgeAB.source = true := by decide
  rw [if_pos hle, if_pos hab] at h1
  rw [if_pos hle, if_neg hba] at h2
  norm_num at h1 h2
  refine ⟨h1, h2, ?_⟩
  rw [h1, h2]
  norm_num

/-- C3 (amended): for an isolated bidirectional pair the two numeric
offsets returned by getEdgeOffset are equal (the orientation sign exactly
compensates the index flip) and nonzero, both edges are routed as
quadratic curves, and because the perpendicular basis flips with the edge
direction their control points are mirror images through the segment
midpoint — the two curves bend to opposite sides. -/
theorem bidirectional_pair_spec (A B : Node) (e1 e2 : Edge)
    (hA : A.id = e1.source) (hB : B.id = e1.target)
    (hs2 : e2.source = e1.target) (ht2 : e2.target = e1.source)
    (hst : e1.source ≠ e1.target) (hid : e1.id ≠ e2.id)
    (hpos : A.position ≠ B.position) :
    getEdgeOffset e1 [e1, e2] = getEdgeOffset e2 [e1, e2] ∧
    getEdgeOffset e1 [e1, e2] ≠ 0 ∧
    (∃ g1 g2, computeEdgeGeometry e1 [A, B] [e1, e2] = some g1 ∧
      computeEdgeGeometry e2 [A, B] [e1, e2] = some g2 ∧
      g1.type = .curve ∧ g2.type = .curve ∧
      ∃ c1 c2, g1.control = some c1 ∧ g2.control = some c2 ∧
        c1.x + c2.x = A.position.x + B.position.x ∧
        c1.y + c2.y = A.position.y + B.position.y) := by
  obtain ⟨ho1, ho2⟩ := getEdgeOffset_pair_eval e1 e2 hs2 ht2 hst hid
  have hsigns : (if strLt e1.target e1.source then (1 : ℚ) else -1) =
      -(if strLt e1.source e1.target then (1 : ℚ) else -1) := by
    rcases strLt_connex hst with h | h
    · rw [if_pos h, if_neg (by simp [strLt_asymm h])]
    · rw [if_pos h, if_neg (by simp [strLt_asymm h])]
      norm_num
  have hoeq : getEdgeOffset e1 [e1, e2] = getEdgeOffset e2 [e1, e2] := by
    rw [ho1, ho2, hsigns]
    by_cases hc : strLe e1.id e2.id = true
    · rw [if_pos hc, if_pos hc]
      ring
    · rw [if_neg hc, if_neg hc]
      ring
  have hone : getEdgeOffset e1 [e1, e2] ≠ 0 := by
    rw [ho1]
    by_cases hc : strLe e1.id e2.id = true
    · rw [if_pos hc]
      by_cases hsgn : strLt e1.source e1.target = true
      · rw [if_pos hsgn]
        norm_num
      · rw [if_neg hsgn]
        norm_num
    · rw [if_neg hc]
      by_cases hsgn : strLt e1.source e1.target = true
      · rw [if_pos hsgn]
        norm_num
      · rw [if_neg hsgn]
        norm_num
  refine ⟨hoeq, hone, ?_⟩
  have hfA1 : List.find? (fun n => n.id = e1.source) [A, B] = some A := by
    simp [List.find?, hA]
  have hfB1 : List.find? (fun n => n.id = e1.target) [A, B] = some B := by
    simp [List.find?, hA, hB, hst]
  have hfB2 : List.find? (fun n => n.id = e2.source) [A, B] = some B := by
    rw [hs2]
    exact hfB1
  have hfA2 : List.find? (fun n => n.id = e2.target) [A, B] = some A := by
    rw [ht2]
    exact hfA1
  have hst2 : e2.source ≠ e2.target := by
    rw [hs2, ht2]
    exact hst.symm
  have hone2 : getEdgeOffset e2 [e1, e2] ≠ 0 := hoeq ▸ hone
  have hg1 : computeEdgeGeometry e1 [A, B] [e1, e2] =
      some (computeCurvedEdgeGeometry A B ((getEdgeOffset e1 [e1, e2] : ℚ) : ℝ)) := by
    simp only [computeEdgeGeometry, hfA1, hfB1]
    rw [if_neg hst, if_neg hone]
  have hg2 : computeEdgeGeometry e2 [A, B] [e1, e2] =
      some (computeCurvedEdgeGeometry B A ((getEdgeOffset e2 [e1, e2] : ℚ) : ℝ)) := by
    simp only [computeEdgeGeometry, hfB2, hfA2]
    rw [if_neg hst2, if_neg hone2]
  have hdne : ¬((B.position.x - A.position.x = 0) ∧ (B.position.y - A.position.y = 0)) := by
    rintro ⟨h1, h2⟩
    exact hpos (Point.ext_xy (by linarith) (by linarith)).symm
  have hdne2 : ¬((A.position.x - B.position.x = 0) ∧ (A.position.y - B.position.y = 0)) := by
    rintro ⟨h1, h2⟩
    exact hpos (Point.ext_xy (by linarith) (by linarith))
  have hlen1 := sqrt_sq_sum_ne_zero hdne
  have hlen2 := sqrt_sq_sum_ne_zero hdne2
  have hLL : Real.sqrt ((A.position.x - B.position.x) * (A.position.x - B.position.x) +
      (A.position.y - B.position.y) * (A.position.y - B.position.y)) =
      Real.sqrt ((B.position.x - A.position.x) * (B.position.x - A.position.x) +
        (B.position.y - A.position.y) * (B.position.y - A.position.y)) := by
    congr 1
    ring
  set o1 : ℝ := ((getEdgeOffset e1 [e1, e2] : ℚ) : ℝ) with ho1def
  set o2 : ℝ := ((getEdgeOffset e2 [e1, e2] : ℚ) : ℝ) with ho2def
  have hocast : o1 = o2 := by
    rw [ho1def, ho2def, hoeq]
  refine ⟨computeCurvedEdgeGeometry A B o1, computeCurvedEdgeGeometry B A o2, hg1, hg2, ?_, ?_, ?_⟩
  · simp only [computeCurvedEdgeGeometry]
    rw [if_neg hlen1]
  · simp only [computeCurvedEdgeGeometry]
    rw [if_neg hlen2]
  · have hc1 : (computeCurvedEdgeGeometry A B o1).control =
        some ⟨(A.position.x + B.position.x) / 2 +
            -(B.position.y - A.position.y) /
              Real.sqrt ((B.position.x - A.position.x) * (B.position.x - A.position.x) +
                (B.position.y - A.position.y) * (B.position.y - A.position.y)) * o1,
          (A.position.y + B.position.y) / 2 +
            (B.position.x - A.position.x) /
              Real.sqrt ((B.position.x - A.position.x) * (B.position.x - A.position.x) +
                (B.position.y - A.position.y) * (B.position.y - A.position.y)) * o1⟩ := by
      simp only [computeCurvedEdgeGeometry]
      rw [if_neg hlen1]
    have hc2 : (computeCurvedEdgeGeometry B A o2).control =
        some ⟨(B.position.x + A.position.x) / 2 +
            -(A.position.y - B.position.y) /
              Real.sqrt ((A.position.x - B.position.x) * (A.position.x - B.position.x) +
                (A.position.y - B.position.y) * (A.position.y - B.position.y)) * o2,
          (B.position.y + A.position.y) / 2 +
            (A.position.x - B.position.x) /
              Real.sqrt ((A.position.x - B.position.x) * (A.position.x - B.position.x) +
                (A.position.y - B.position.y) * (A.position.y - B.position.y)) * o2⟩ := by
      simp only [computeCurvedEdgeGeometry]
      rw [if_neg hlen2]
    refine ⟨_, _, hc1, hc2, ?_, ?_⟩
    · rw [hLL, ← hocast]
      simp only
      ring
    · rw [hLL, ← hocast]
      simp only
      ring

/-- Witness for C3 at the concrete pair of sample nodes and edges. -/
theorem bidirectional_pair_spec_witness :
    getEdgeOffset edgeAB [edgeAB, edgeBA] = getEdgeOffset edgeBA [edgeAB, edgeBA] ∧
    getEdgeOffset edgeAB [edgeAB, edgeBA] ≠ 0 :=
  have h := bidirectional_pair_spec nodeA nodeB edgeAB edgeBA rfl rfl rfl rfl
    (by decide) (by decide)
    (by
      intro h
      have hx : (0 : ℝ) = 200 := congrArg Point.x h
      norm_num at hx)
  ⟨h.1, h.2.1⟩

/-! ## C1 and C9: connection points on shape boundaries -/

@[simp] theorem Point.mk_x (a b : ℝ) : (Point.mk a b).x = a := rfl

@[simp] theorem Point.mk_y (a b : ℝ) : (Point.mk a b).y = b := rfl

theorem getNodeDimensions_pos (node : Node) :
    0 < (getNodeDimensions node).width ∧ 0 < (getNodeDimensions node).height ∧
      0 < (getNodeDimensions node).radius := by
  simp only [getNodeDimensions]
  rcases hsz : nodeSizeClass node <;> split_ifs <;>
    refine ⟨?_, ?_, ?_⟩ <;> norm_num [sizeMultiplier, jsRound]

/-- Divisor fact for the vertical-edge branch of the rectangle case: the
branch condition forces a nonzero horizontal direction component. -/
theorem rect_vertical_divisor {ndx ndy w h : ℝ} (hw : 0 ≤ w)
    (hbr : |ndx| * h > |ndy| * w) : ndx ≠ 0 := by
  intro h0
  rw [h0, abs_zero, zero_mul] at hbr
  exact absurd hbr (not_lt.mpr (mul_nonneg (abs_nonneg ndy) hw))

/-- Divisor fact for the horizontal-edge branch of the rectangle case: for
a unit direction vector the complementary branch forces a nonzero vertical
component. -/
theorem rect_horizontal_divisor {ndx ndy w h : ℝ} (hh : 0 < h)
    (hu : ndx ^ 2 + ndy ^ 2 = 1)
    (hnbr : ¬(|ndx| * h > |ndy| * w)) : ndy ≠ 0 := by
  intro h0
  rw [h0, abs_zero, zero_mul] at hnbr
  push_neg at hnbr
  have h1 : ndx ^ 2 = 1 := by
    rw [h0] at hu
    simpa using hu
  have h2 : |ndx| = 1 := by
    nlinarith [sq_abs ndx, abs_nonneg ndx]
  rw [h2, one_mul] at hnbr
  linarith

/-- C1 (amended): for a target distinct from the node center the returned
point lies exactly on the ellipse for ellipse nodes and on the rectangle's
edge frame for rectangle nodes; for diamond nodes it lies on the
approximating circle of radius 0.8 × radius (a deliberate simplification,
not on the drawn diamond); for circle and all other shapes (triangle,
hexagon, star) it lies at distance radius from the center. -/
theorem connectionPoint_on_boundary (node : Node) (targetPos : Point)
    (h : targetPos ≠ node.position) :
    (getNodeShape node = "ellipse" →
      ((getNodeConnectionPoint node targetPos).x - node.position.x) ^ 2 /
          (((getNodeDimensions node).width : ℝ) / 2) ^ 2 +
        ((getNodeConnectionPoint node targetPos).y - node.position.y) ^ 2 /
          (((getNodeDimensions node).height : ℝ) / 2) ^ 2 = 1) ∧
    (getNodeShape node = "rectangle" →
      (|(getNodeConnectionPoint node targetPos).x - node.position.x| =
          ((getNodeDimensions node).width : ℝ) / 2 ∧
        |(getNodeConnectionPoint node targetPos).y - node.position.y| ≤
          ((getNodeDimensions node).height : ℝ) / 2) ∨
      (|(getNodeConnectionPoint node targetPos).y - node.position.y| =
          ((getNodeDimensions node).height : ℝ) / 2 ∧
        |(getNodeConnectionPoint node targetPos).x - node.position.x| ≤
          ((getNodeDimensions node).width : ℝ) / 2)) ∧
    (getNodeShape node = "diamond" →
      ((getNodeConnectionPoint node targetPos).x - node.position.x) ^ 2 +
        ((getNodeConnectionPoint node targetPos).y - node.position.y) ^ 2 =
        (((getNodeDimensions node).radius : ℝ) * (8 / 10)) ^ 2) ∧
    (getNodeShape node ≠ "ellipse" → getNodeShape node ≠ "rectangle" →
      getNodeShape node ≠ "diamond" →
      ((getNodeConnectionPoint node targetPos).x - node.position.x) ^ 2 +
        ((getNodeConnectionPoint node targetPos).y - node.position.y) ^ 2 =
        ((getNodeDimensions node).radius : ℝ) ^ 2) := by
  have hne := diff_not_both_zero h
  have hd := sqrt_sq_sum_ne_zero hne
  have hu := normalized_sq_sum hne
  obtain ⟨hwq, hhq, hrq⟩ := getNodeDimensions_pos node
  have hwR : (0 : ℝ) < ((getNodeDimensions node).width : ℝ) := by exact_mod_cast hwq
  have hhR : (0 : ℝ) < ((getNodeDimensions node).height : ℝ) := by exact_mod_cast hhq
  refine ⟨?_, ?_, ?_, ?_⟩
  · intro hsh
    simp only [getNodeConnectionPoint]
    rw [if_neg hd, hsh, if_pos rfl]
    simp only [Point.mk_x, Point.mk_y, add_sub_cancel_left]
    rw [mul_pow, mul_pow,
      mul_div_cancel_left₀ _ (pow_ne_zero 2 (by positivity)),
      mul_div_cancel_left₀ _ (pow_ne_zero 2 (by positivity))]
    exact Real.cos_sq_add_sin_sq _
  · intro hsh
    simp only [getNodeConnectionPoint]
    rw [if_neg hd, hsh, if_neg (by decide), if_pos rfl]
    simp only [Point.mk_x, Point.mk_y, add_sub_cancel_left]
    set L := Real.sqrt ((targetPos.x - node.position.x) * (targetPos.x - node.position.x) +
      (targetPos.y - node.position.y) * (targetPos.y - node.position.y)) with hLdef
    set ndx := (targetPos.x - node.position.x) / L with hndxdef
    set ndy := (targetPos.y - node.position.y) / L with hndydef
    set w := ((getNodeDimensions node).width : ℝ) / 2 with hwdef
    set hh := ((getNodeDimensions node).height : ℝ) / 2 with hhdef
    have hw2 : 0 < w := by
      rw [hwdef]
      linarith
    have hh2 : 0 < hh := by
      rw [hhdef]
      linarith
    by_cases hbr : |ndx| * hh > |ndy| * w
    · rw [if_pos hbr]
      have hndx : ndx ≠ 0 := rect_vertical_divisor hw2.le hbr
      simp only [jsOrDefault, if_neg hndx]
      left
      constructor
      · by_cases hdir : ndx > 0
        · rw [if_pos hdir]
          exact abs_of_pos hw2
        · rw [if_neg hdir]
          rw [abs_neg]
          exact abs_of_pos hw2
      · rw [abs_div, abs_mul, abs_abs, abs_of_pos hw2, div_le_iff₀ (abs_pos.mpr hndx)]
        nlinarith [hbr]
    · rw [if_neg hbr]
      have hndy : ndy ≠ 0 := rect_horizontal_divisor hh2 hu hbr
      simp only [jsOrDefault, if_neg hndy]
      right
      constructor
      · by_cases hdir : ndy > 0
        · rw [if_pos hdir]
          exact abs_of_pos hh2
        · rw [if_neg hdir]
          rw [abs_neg]
          exact abs_of_pos hh2
      · rw [abs_div, abs_mul, abs_abs, abs_of_pos hh2, div_le_iff₀ (abs_pos.mpr hndy)]
        nlinarith [not_lt.mp hbr]
  · intro hsh
    simp only [getNodeConnectionPoint]
    rw [if_neg hd, hsh, if_neg (by decide), if_neg (by decide), if_pos rfl]
    simp only [Point.mk_x, Point.mk_y, add_sub_cancel_left]
    linear_combination ((((getNodeDimensions node).radius : ℝ) * (8 / 10)) ^ 2) * hu
  · intro hsh1 hsh2 hsh3
    simp only [getNodeConnectionPoint]
    rw [if_neg hd, if_neg hsh1, if_neg hsh2, if_neg hsh3]
    simp only [Point.mk_x, Point.mk_y, add_sub_cancel_left]
    linear_combination (((getNodeDimensions node).radius : ℝ) ^ 2) * hu

theorem practiceNode_dims : getNodeDimensions practiceNode = ⟨100, 50, 25⟩ := by
  unfold getNodeDimensions
  rw [if_neg (by decide), if_neg (by decide)]
  norm_num [nodeSizeClass, practiceNode, sizeMultiplier, jsRound, NodeDims.mk.injEq]

theorem testNode_dims : getNodeDimensions testNode = ⟨70, 70, 35⟩ := by
  simp only [getNodeDimensions]
  rw [if_pos (by decide)]
  norm_num [nodeSizeClass, testNode, sizeMultiplier, jsRound, NodeDims.mk.injEq]

/-- Membership on the rhombus outline the SVG serializer draws for a
diamond node (exportAsSVG's diamond path with vertices at
(cx, cy ± height/2) and (cx ± width/2, cy)): its four segments satisfy
|x − cx| / (width/2) + |y − cy| / (height/2) = 1. -/
def onDrawnDiamondBoundary (node : Node) (p : Point) : Prop :=
  |p.x - node.position.x| / (((getNodeDimensions node).width : ℝ) / 2) +
    |p.y - node.position.y| / (((getNodeDimensions node).height : ℝ) / 2) = 1

/-- Counterexample for C1 as frozen: for a default diamond (test) node the
connection point toward (1, 0) is (28, 0) — on the approximating circle of
radius 0.8 · 35 — while the drawn diamond crosses the positive x axis at
(35, 0); the returned point is not on the diamond's drawn boundary. -/
theorem diamond_connection_counterexample :
    getNodeConnectionPoint testNode ⟨1, 0⟩ = ⟨28, 0⟩ ∧
    ¬ onDrawnDiamondBoundary testNode ⟨28, 0⟩ := by
  have hdim := testNode_dims
  constructor
  · have harg : ((⟨1, 0⟩ : Point).x - testNode.position.x) *
        ((⟨1, 0⟩ : Point).x - testNode.position.x) +
        ((⟨1, 0⟩ : Point).y - testNode.position.y) *
        ((⟨1, 0⟩ : Point).y - testNode.position.y) = 1 := by
      simp [testNode]
    simp only [getNodeConnectionPoint, harg, Real.sqrt_one]
    rw [if_neg one_ne_zero]
    rw [show getNodeShape testNode = "diamond" from rfl]
    rw [if_neg (by decide), if_neg (by decide), if_pos rfl]
    rw [hdim]
    apply Point.ext_xy
    · simp [testNode]
      norm_num
    · simp [testNode]
  · intro hmem
    unfold onDrawnDiamondBoundary at hmem
    rw [hdim] at hmem
    simp [testNode] at hmem
    norm_num at hmem

/-- Witness for C1 at a concrete diamond node and target: the diamond
conjunct instantiated at the test node aimed at (1, 0). -/
theorem connectionPoint_on_boundary_witness :
    ((getNodeConnectionPoint testNode ⟨1, 0⟩).x - testNode.position.x) ^ 2 +
      ((getNodeConnectionPoint testNode ⟨1, 0⟩).y - testNode.position.y) ^ 2 =
      (((getNodeDimensions testNode).radius : ℝ) * (8 / 10)) ^ 2 :=
  (connectionPoint_on_boundary testNode ⟨1, 0⟩
      (by
        intro heq
        have hx : (1 : ℝ) = 0 := by
          have := congrArg Point.x heq
          simpa [testNode] using this
        norm_num at hx)).2.2.1 rfl

/-- C9: in the rectangle branch the two divisions are by nonzero
quantities — when the vertical-edge case |ndx|·h > |ndy|·w is selected the
normalized x component is nonzero, and in the complementary case the
normalized y component is nonzero; with nonzero divisors the branch is
total (no NaN or Infinity arises in the real-number model). -/
theorem rectangle_divisors_spec (node : Node) (targetPos : Point)
    (h : targetPos ≠ node.position) (hshape : getNodeShape node = "rectangle") :
    (|(targetPos.x - node.position.x) /
          Real.sqrt ((targetPos.x - node.position.x) * (targetPos.x - node.position.x) +
            (targetPos.y - node.position.y) * (targetPos.y - node.position.y))| *
          (((getNodeDimensions node).height : ℝ) / 2) >
        |(targetPos.y - node.position.y) /
            Real.sqrt ((targetPos.x - node.position.x) * (targetPos.x - node.position.x) +
              (targetPos.y - node.position.y) * (targetPos.y - node.position.y))| *
          (((getNodeDimensions node).width : ℝ) / 2) →
      (targetPos.x - node.position.x) /
          Real.sqrt ((targetPos.x - node.position.x) * (targetPos.x - node.position.x) +
            (targetPos.y - node.position.y) * (targetPos.y - node.position.y)) ≠ 0) ∧
    (¬(|(targetPos.x - node.position.x) /
          Real.sqrt ((targetPos.x - node.position.x) * (targetPos.x - node.position.x) +
            (targetPos.y - node.position.y) * (targetPos.y - node.position.y))| *
          (((getNodeDimensions node).height : ℝ) / 2) >
        |(targetPos.y - node.position.y) /
            Real.sqrt ((targetPos.x - node.position.x) * (targetPos.x - node.position.x) +
              (targetPos.y - node.position.y) * (targetPos.y - node.position.y))| *
          (((getNodeDimensions node).width : ℝ) / 2)) →
      (targetPos.y - node.position.y) /
          Real.sqrt ((targetPos.x - node.position.x) * (targetPos.x - node.position.x) +
            (targetPos.y - node.position.y) * (targetPos.y - node.position.y)) ≠ 0) := by
  have hne := diff_not_both_zero h
  have hu := normalized_sq_sum hne
  obtain ⟨hwq, hhq, _⟩ := getNodeDimensions_pos node
  have hwR : (0 : ℝ) < ((getNodeDimensions node).width : ℝ) := by exact_mod_cast hwq
  have hhR : (0 : ℝ) < ((getNodeDimensions node).height : ℝ) := by exact_mod_cast hhq
  constructor
  · intro hbr
    exact rect_vertical_divisor (by linarith) hbr
  · intro hbr
    exact rect_horizontal_divisor (by linarith) hu hbr

/-- Witness for C9: for the rectangle practice node aimed at (1, 0) the
vertical-edge case is selected and its divisor is nonzero. -/
theorem rectangle_divisors_spec_witness :
    ((Point.mk 1 0).x - practiceNode.position.x) /
      Real.sqrt (((Point.mk 1 0).x - practiceNode.position.x) *
          ((Point.mk 1 0).x - practiceNode.position.x) +
        ((Point.mk 1 0).y - practiceNode.position.y) *
          ((Point.mk 1 0).y - practiceNode.position.y)) ≠ 0 := by
  have hne : (⟨1, 0⟩ : Point) ≠ practiceNode.position := by
    intro heq
    have hx : (1 : ℝ) = 0 := by
      have := congrArg Point.x heq
      simpa [practiceNode] using this
    norm_num at hx
  have h := (rectangle_divisors_spec practiceNode ⟨1, 0⟩ hne rfl).1
  apply h
  rw [practiceNode_dims]
  have harg : ((⟨1, 0⟩ : Point).x - practiceNode.position.x) *
      ((⟨1, 0⟩ : Point).x - practiceNode.position.x) +
      ((⟨1, 0⟩ : Point).y - practiceNode.position.y) *
      ((⟨1, 0⟩ : Point).y - practiceNode.position.y) = 1 := by
    simp [practiceNode]
  rw [harg, Real.sqrt_one]
  simp [practiceNode]

/-! ## C7: SVG and TikZ emit the same edge geometry up to the TikZ
coordinate transform -/

/-- Points of an edge geometry in path order as the claim describes them:
start, control point(s) when the geometry class carries them, end. -/
def edgeGeometryPoints (g : ExportEdgeGeometry) : List Point :=
  match g.type with
  | .straight => [g.start, g.endPoint]
  | .curve => g.start :: (g.control.toList ++ [g.endPoint])
  | .loop => g.start :: (g.control.toList ++ g.control2.toList ++ [g.endPoint])

/-- Coordinate transform stated by the claim for the TikZ exporter:
p ↦ ((p.x − centerX)·scale, −(p.y − centerY)·scale), centre and scale
computed from the diagram bounds exactly as generateTikZCode does. -/
noncomputable def specTikZTransform (nodes : List Node) (p : Point) : Point :=
  let bounds := calculateDiagramBounds nodes
  let centerX := (bounds.minX + bounds.maxX) / 2
  let centerY := (bounds.minY + bounds.maxY) / 2
  let maxDimension := max bounds.width bounds.height
  let scale := if maxDimension > 0 then 15 / maxDimension else 1
  ⟨(p.x - centerX) * scale, -((p.y - centerY) * scale)⟩

theorem svgPathPoints_loop (node : Node) :
    svgPathPoints (computeLoopEdgeGeometry node) =
      edgeGeometryPoints (computeLoopEdgeGeometry node) := rfl

theorem tikzDrawPoints_loop (node : Node) :
    tikzDrawPoints (computeLoopEdgeGeometry node) =
      edgeGeometryPoints (computeLoopEdgeGeometry node) := rfl

theorem svgPathPoints_straight (s t : Node) :
    svgPathPoints (computeStraightEdgeGeometry s t) =
      edgeGeometryPoints (computeStraightEdgeGeometry s t) := rfl

theorem tikzDrawPoints_straight (s t : Node) :
    tikzDrawPoints (computeStraightEdgeGeometry s t) =
      edgeGeometryPoints (computeStraightEdgeGeometry s t) := rfl

theorem svgPathPoints_curved (s t : Node) (o : ℝ) :
    svgPathPoints (computeCurvedEdgeGeometry s t o) =
      edgeGeometryPoints (computeCurvedEdgeGeometry s t o) := by
  simp only [computeCurvedEdgeGeometry]
  split_ifs <;> rfl

theorem tikzDrawPoints_curved (s t : Node) (o : ℝ) :
    tikzDrawPoints (computeCurvedEdgeGeometry s t o) =
      edgeGeometryPoints (computeCurvedEdgeGeometry s t o) := by
  simp only [computeCurvedEdgeGeometry]
  split_ifs <;> rfl

theorem computeEdgeGeometry_points_agree (edge : Edge) (nodes : List Node)
    (allEdges : List Edge) (g : ExportEdgeGeometry)
    (hg : computeEdgeGeometry edge nodes allEdges = some g) :
    svgPathPoints g = edgeGeometryPoints g ∧ tikzDrawPoints g = edgeGeometryPoints g := by
  unfold computeEdgeGeometry at hg
  rcases h1 : nodes.find? (fun n => n.id = edge.source) with _ | s
  · rw [h1] at hg
    exact absurd hg (by simp)
  · rw [h1] at hg
    rcases h2 : nodes.find? (fun n => n.id = edge.target) with _ | t
    · rw [h2] at hg
      exact absurd hg (by simp)
    · rw [h2] at hg
      split_ifs at hg with hloop hzero
      · obtain rfl := Option.some.inj hg
        exact ⟨svgPathPoints_loop s, tikzDrawPoints_loop s⟩
      · obtain rfl := Option.some.inj hg
        exact ⟨svgPathPoints_straight s t, tikzDrawPoints_straight s t⟩
      · obtain rfl := Option.some.inj hg
        exact ⟨svgPathPoints_curved s t _, tikzDrawPoints_curved s t _⟩

/-- C7: per edge, the SVG serializer emits exactly the geometry's start,
control and end points, two-decimal rounded; the TikZ serializer emits
exactly the same points through the claimed transform (recentre by the
bounds centre, uniform scale, y flip), two-decimal rounded after the
transform.  Both skip precisely the edges whose geometry is null. -/
theorem export_serializers_agree (edge : Edge) (nodes : List Node) (allEdges : List Edge) :
    svgEmittedEdgePoints edge nodes allEdges =
      (computeEdgeGeometry edge nodes allEdges).map
        (fun g => (edgeGeometryPoints g).map round2Point) ∧
    tikzEmittedEdgePoints edge nodes allEdges =
      (computeEdgeGeometry edge nodes allEdges).map
        (fun g => (edgeGeometryPoints g).map fun p => round2Point (specTikZTransform nodes p)) := by
  constructor
  · unfold svgEmittedEdgePoints
    rcases hg : computeEdgeGeometry edge nodes allEdges with _ | g
    · rfl
    · simp only [Option.map_some']
      rw [(computeEdgeGeometry_points_agree edge nodes allEdges g hg).1]
  · unfold tikzEmittedEdgePoints specTikZTransform convertPoint
    rcases hg : computeEdgeGeometry edge nodes allEdges with _ | g
    · rfl
    · simp only [Option.map_some']
      rw [(computeEdgeGeometry_points_agree edge nodes allEdges g hg).2]

end PragmaGraph
